import Mathlib

/-!
Verification of the cache / fallback / persistence core of the stock-browsing
client (src/services/cacheService.js, src/services/stockService_new.js,
src/services/wishlistService.js, src/services/searchService.js and the
apiService module).

Modelling conventions (shallow embedding):
* AsyncStorage is a string-keyed map, modelled as an association list
  `List (String × V)`; lookup takes the first matching pair, `setItem`
  overwrites, `removeItem` deletes every pair with the key (keys are unique
  in real storage, so this is the map semantics).  The JSON
  serialize/deserialize round trip performed by the services is modelled as
  the identity: values are stored directly.
* `Date.now()` timestamps are integers (milliseconds); `new Date(s)` applied
  to a chart date string is modelled by storing the parsed epoch value
  directly in the point.  ISO strings produced by `toISOString()` are passed
  in as an opaque `String` parameter.
* JavaScript `a || b` on possibly-`undefined` strings is `jsOrStr`
  (`undefined` ↦ `none`, and the empty string is falsy).  `===` between
  possibly-`undefined` strings is equality of `Option String`.
* A rejected promise / thrown exception is `Except.error`; an `async`
  function that can only resolve is a total function.
-/

namespace GrowwProdd

/-- JavaScript truthiness of a string-or-undefined value: `undefined` and the
empty string are falsy. -/
def jsTruthyStr : Option String → Bool
  | none => false
  | some s => !s.isEmpty

/-- JavaScript `a || b` on string-or-undefined values. -/
def jsOrStr (a b : Option String) : Option String :=
  match a with
  | some s => if s.isEmpty then b else some s
  | none => b

/-- JavaScript `hay.startsWith(needle)`, modelled on the character lists. -/
def jsStartsWith (hay needle : String) : Bool :=
  needle.toList.isPrefixOf hay.toList

/-- JavaScript `hay.includes(needle)`, modelled on the character lists. -/
def jsIncludes (hay needle : String) : Bool :=
  hay.toList.tails.any (fun suf => needle.toList.isPrefixOf suf)

/-- JavaScript `s.toUpperCase()`, modelled characterwise. -/
def jsToUpper (s : String) : String :=
  String.mk (s.toList.map Char.toUpper)

/-! ## Persistent key-value store (AsyncStorage collaborator) -/

/-- The durable string-keyed store.  Association list; first match wins. -/
abbrev Store (V : Type) : Type := List (String × V)

/-- `AsyncStorage.getItem`. -/
def storageGetItem {V : Type} (st : Store V) (k : String) : Option V :=
  (List.find? (fun kv => kv.1 == k) st).map (fun kv => kv.2)

/-- `AsyncStorage.removeItem`. -/
def storageRemoveItem {V : Type} (st : Store V) (k : String) : Store V :=
  List.filter (fun kv => kv.1 != k) st

/-- `AsyncStorage.setItem` (overwrite semantics of a map). -/
def storageSetItem {V : Type} (st : Store V) (k : String) (v : V) : Store V :=
  (k, v) :: storageRemoveItem st k

/-- `AsyncStorage.multiRemove`. -/
def storageMultiRemove {V : Type} (st : Store V) (ks : List String) : Store V :=
  List.filter (fun kv => !(ks.contains kv.1)) st

/-- `AsyncStorage.getAllKeys`. -/
def storageAllKeys {V : Type} (st : Store V) : List String :=
  st.map (fun kv => kv.1)

/-! ## Expiring cache (src/services/cacheService.js) -/

/-- `const CACHE_PREFIX = 'cache_'` (renamed slug of the source constant). -/
def cachePref : String := "cache_"

/-- The JSON object written by `cacheService.set`:
`{ data, timestamp: Date.now(), expiration: Date.now() + expirationMs }`. -/
structure CacheItem (α : Type) where
  data : α
  timestamp : Int
  expiration : Int
deriving DecidableEq, Repr

/-- `cacheService.set(key, data, expirationMs)` at current time `now`. -/
def cacheSet {α : Type} (st : Store (CacheItem α)) (key : String) (d : α)
    (expirationMs now : Int) : Store (CacheItem α) :=
  storageSetItem st (cachePref ++ key) ⟨d, now, now + expirationMs⟩

/-- `cacheService.remove(key)`. -/
def cacheRemove {α : Type} (st : Store (CacheItem α)) (key : String) :
    Store (CacheItem α) :=
  storageRemoveItem st (cachePref ++ key)

/-- `cacheService.get(key)` at current time `now`: returns the payload only
if present and `now <= expiration`; an expired entry is removed
(`await this.remove(key)`) and `null` is reported.  The pair carries the
store after the side effect. -/
def cacheGet {α : Type} (st : Store (CacheItem α)) (key : String) (now : Int) :
    Option α × Store (CacheItem α) :=
  match storageGetItem st (cachePref ++ key) with
  | none => (none, st)
  | some item =>
    if item.expiration < now then (none, cacheRemove st key)
    else (some item.data, st)

/-- `cacheService.clearAll()`: list all keys, keep those starting with the
cache namespace, `multiRemove` them. -/
def cacheClearAll {V : Type} (st : Store V) : Store V :=
  storageMultiRemove st
    (List.filter (fun k => jsStartsWith k cachePref) (storageAllKeys st))

/-- `const WISHLIST_KEY = 'stock_wishlists'` (src/services/wishlistService.js). -/
def WISHLIST_KEY : String := "stock_wishlists"

/-! ## Market data gateway (apiService.makeRequest) -/

/-- The parsed JSON body of an upstream response, as far as `makeRequest`
inspects it: the `'Error Message'` field, the `'Note'` field, and the rest of
the payload (opaque). -/
structure UpstreamBody where
  errorMessage : Option String
  note : Option String
  payload : String
deriving DecidableEq, Repr

/-- What the environment does to one `fetch` call: the abort controller
fires (timeout), the fetch rejects for another reason, or an HTTP response
arrives with `response.ok`, `response.status` and a parsed JSON body. -/
inductive FetchOutcome where
  | abort
  | netFailure (msg : String)
  | httpResponse (ok : Bool) (status : Int) (body : UpstreamBody)
deriving DecidableEq, Repr

/-- The envelope `makeRequest` resolves with. -/
structure ApiEnvelope (β : Type) where
  success : Bool
  data : Option β
  error : Option String
  status : Int
deriving DecidableEq, Repr

/-- A thrown JavaScript error, distinguishing the `AbortError` produced by
the aborted fetch (checked via `error.name === 'AbortError'`) from ordinary
`Error`s. -/
inductive JsError where
  | abortError
  | jsError (msg : String)
deriving DecidableEq, Repr

/-- The `try` block of `apiService.makeRequest`: non-2xx status, an
`'Error Message'` field, and a truthy `'Note'` field are each thrown;
otherwise the success envelope is returned. -/
def makeRequestTry (o : FetchOutcome) : Except JsError (ApiEnvelope UpstreamBody) :=
  match o with
  | .abort => .error .abortError
  | .netFailure msg => .error (.jsError msg)
  | .httpResponse ok status body =>
    if !ok then
      .error (.jsError ("HTTP error! status: " ++ toString status))
    else if jsTruthyStr body.errorMessage then
      .error (.jsError (body.errorMessage.getD ""))
    else if jsTruthyStr body.note then
      .error (.jsError "API call frequency limit reached. Please try again later.")
    else
      .ok { success := true, data := some body, error := none, status := status }

/-- `apiService.makeRequest`: the `catch` block re-throws a fresh timeout
`Error` when the caught error is the `AbortError` (so the promise REJECTS on
timeout), and otherwise resolves with the failure envelope
`{success: false, error: error.message, status: error.status || 500}`
(thrown `Error`s carry no `status`, hence 500). -/
def makeRequest (o : FetchOutcome) : Except String (ApiEnvelope UpstreamBody) :=
  match makeRequestTry o with
  | .ok env => .ok env
  | .error .abortError =>
    .error "Request timeout - please check your internet connection"
  | .error (.jsError msg) =>
    .ok { success := false, data := none, error := some msg, status := 500 }

/-! ## Wishlist store (src/services/wishlistService.js) -/

/-- A stock entry stored inside a wishlist (`stockToAdd` in
`addStockToWishlist`).  `symbol` is `stock.symbol || stock.ticker`, which in
JavaScript can still be `undefined`, hence `Option String`. -/
structure WishlistStock where
  symbol : Option String
  name : String
  price : String
  change : String
  addedAt : String
deriving DecidableEq, Repr

/-- A persisted wishlist. -/
structure Wishlist where
  id : String
  name : String
  stocks : List WishlistStock
  createdAt : String
  updatedAt : String
deriving DecidableEq, Repr

/-- The stock object passed to `addStockToWishlist`: it may carry its
identifier in `symbol` or in `ticker` (or neither). -/
structure StockInput where
  symbol : Option String
  ticker : Option String
  name : String
  price : String
  change : String
deriving DecidableEq, Repr

/-- Replace the first list element with the given id (the effect of
`findIndex` followed by in-place mutation of that element). -/
def updateFirstById (ws : List Wishlist) (wishlistId : String)
    (f : Wishlist → Wishlist) : List Wishlist :=
  match ws with
  | [] => []
  | w :: rest =>
    if w.id == wishlistId then f w :: rest
    else w :: updateFirstById rest wishlistId f

/-- `wishlistService.addStockToWishlist(wishlistId, stock)` over the loaded
collection, at ISO time `nowIso`.  The duplicate check compares only
`s.symbol === stock.symbol` (the raw `symbol` field of the input, not the
`ticker` fallback).  Thrown errors are re-thrown by the `catch`, so they
reach the caller. -/
def addStockToWishlist (wishlists : List Wishlist) (wishlistId : String)
    (stock : StockInput) (nowIso : String) : Except String (List Wishlist) :=
  match List.find? (fun w => w.id == wishlistId) wishlists with
  | none => .error "Wishlist not found"
  | some w =>
    if w.stocks.any (fun s => s.symbol == stock.symbol) then
      .error "Stock already exists in this wishlist"
    else
      .ok (updateFirstById wishlists wishlistId (fun wl =>
        { wl with
          stocks := wl.stocks ++
            [⟨jsOrStr stock.symbol stock.ticker, stock.name, stock.price,
              stock.change, nowIso⟩],
          updatedAt := nowIso }))

/-- The `try` block of `removeStockFromWishlist`: unknown id throws
`'Wishlist not found'`; otherwise the first matching wishlist has the symbol
filtered out of `stocks` (`s.symbol !== stockSymbol`), `updatedAt` bumped and
the collection persisted, returning `true`. -/
def removeStockTry (wishlists : List Wishlist) (wishlistId : String)
    (stockSymbol : String) (nowIso : String) :
    Except String (Bool × List Wishlist) :=
  match List.find? (fun w => w.id == wishlistId) wishlists with
  | none => .error "Wishlist not found"
  | some _ =>
    .ok (true, updateFirstById wishlists wishlistId (fun wl =>
      { wl with
        stocks := wl.stocks.filter (fun s => s.symbol != some stockSymbol),
        updatedAt := nowIso }))

/-- `wishlistService.removeStockFromWishlist`: unlike `addStockToWishlist`,
its `catch` block does NOT re-throw — it logs and returns `false` — so the
function never rejects; the thrown "Wishlist not found" is converted into a
`false` success flag with the collection untouched. -/
def removeStockFromWishlist (wishlists : List Wishlist) (wishlistId : String)
    (stockSymbol : String) (nowIso : String) :
    Except String (Bool × List Wishlist) :=
  match removeStockTry wishlists wishlistId stockSymbol nowIso with
  | .error _ => .ok (false, wishlists)
  | r => r

/-! ## Stock data orchestrator (src/services/stockService_new.js) -/

/-- A raw movers entry from the upstream payload. -/
structure RawStock where
  ticker : String
  price : String
  change_percentage : String
  change_amount : String
  volume : String
deriving DecidableEq, Repr

/-- The raw `TOP_GAINERS_LOSERS` payload.  The three lists may be absent
(the code guards with `|| []`); `metadata` is passed through opaquely. -/
structure RawMovers where
  metadata : String
  last_updated : String
  top_gainers : Option (List RawStock)
  top_losers : Option (List RawStock)
  most_actively_traded : Option (List RawStock)
deriving DecidableEq, Repr

/-- A formatted movers entry (`formatStockList` output shape). -/
structure FormattedStock where
  id : Nat
  ticker : String
  name : String
  price : String
  change : String
  changeAmount : String
  volume : String
deriving DecidableEq, Repr

/-- The `metadata` field of the returned movers object: either the raw
upstream metadata passed through, or the fallback object
`{information: "Fallback data - API temporarily unavailable"}`. -/
inductive MoversMeta where
  | fromApi (metadata : String)
  | fallbackInfo (information : String)
deriving DecidableEq, Repr

/-- The formatted movers payload returned by `fetchTopGainersLosers`. -/
structure MoversData where
  metadata : MoversMeta
  lastUpdated : String
  topGainers : List FormattedStock
  topLosers : List FormattedStock
  mostActive : List FormattedStock
deriving DecidableEq, Repr

/-- The static ticker→name table inside `getCompanyName`. -/
def knownTickers : List (String × String) :=
  [("AAPL", "Apple Inc."), ("TSLA", "Tesla Inc."), ("MSFT", "Microsoft Corp."),
   ("AMZN", "Amazon.com Inc."), ("GOOGL", "Alphabet Inc."),
   ("META", "Meta Platforms Inc."), ("NFLX", "Netflix Inc."),
   ("NVDA", "NVIDIA Corp."), ("BRK.A", "Berkshire Hathaway"),
   ("BRK.B", "Berkshire Hathaway"), ("UNH", "UnitedHealth Group"),
   ("JNJ", "Johnson & Johnson"), ("JPM", "JPMorgan Chase"), ("V", "Visa Inc."),
   ("PG", "Procter & Gamble"), ("HD", "Home Depot"), ("MA", "Mastercard Inc."),
   ("BAC", "Bank of America"), ("ABBV", "AbbVie Inc."), ("PFE", "Pfizer Inc."),
   ("KO", "Coca-Cola"), ("AVGO", "Broadcom Inc."), ("PEP", "PepsiCo Inc."),
   ("TMO", "Thermo Fisher"), ("COST", "Costco Wholesale"),
   ("DIS", "Walt Disney"), ("ABT", "Abbott Laboratories"),
   ("ACN", "Accenture"), ("VZ", "Verizon"), ("ADBE", "Adobe Inc."),
   ("DHR", "Danaher Corp."), ("WMT", "Walmart Inc."),
   ("TXN", "Texas Instruments"), ("NEE", "NextEra Energy"),
   ("BMY", "Bristol Myers")]

/-- `getCompanyName(ticker)`: `knownTickers[ticker] || ticker + ' Inc.'`
(every table value is a non-empty string, so `||` is just the miss test). -/
def getCompanyName (ticker : String) : String :=
  match List.find? (fun kv => kv.1 == ticker) knownTickers with
  | some kv => kv.2
  | none => ticker ++ " Inc."

/-- The inner `formatStockList` of `formatStockData`, i.e.
`stocks.map((stock, index) => ...)`, written with an explicit running index
(`fmt` stands for `s => parseFloat(s).toFixed(2)`, the floating-point
formatting, kept abstract).  `id` is `index + 1`. -/
def formatStockListFrom (fmt : String → String) (i : Nat) :
    List RawStock → List FormattedStock
  | [] => []
  | s :: rest =>
    ⟨i + 1, s.ticker, getCompanyName s.ticker, "$" ++ fmt s.price,
     s.change_percentage, "$" ++ fmt s.change_amount, s.volume⟩ ::
      formatStockListFrom fmt (i + 1) rest

/-- `formatStockList(stocks)` (indexing starts at 0). -/
def formatStockList (fmt : String → String) (stocks : List RawStock) :
    List FormattedStock :=
  formatStockListFrom fmt 0 stocks

/-- `formatStockData(apiData)`. -/
def formatStockData (fmt : String → String) (apiData : RawMovers) : MoversData :=
  { metadata := .fromApi apiData.metadata,
    lastUpdated := apiData.last_updated,
    topGainers := formatStockList fmt (apiData.top_gainers.getD []),
    topLosers := formatStockList fmt (apiData.top_losers.getD []),
    mostActive := formatStockList fmt (apiData.most_actively_traded.getD []) }

/-- The hard-coded `dummyStocks` array of `getFallbackData`. -/
def dummyStocks : List FormattedStock :=
  [⟨1, "AAPL", "Apple Inc.", "$175.43", "+2.15%", "+$3.69", "28,456,789"⟩,
   ⟨2, "GOOGL", "Alphabet Inc.", "$142.87", "+1.87%", "+$2.63", "31,287,456"⟩,
   ⟨3, "MSFT", "Microsoft Corp.", "$367.12", "+0.92%", "+$3.34", "22,876,543"⟩,
   ⟨4, "TSLA", "Tesla Inc.", "$248.96", "-1.23%", "-$3.10", "45,692,134"⟩]

/-- `getFallbackData()` at ISO time `nowIso`: `topGainers = slice(0,3)`,
`topLosers = slice(1,4)`, `mostActive` = all four. -/
def getFallbackData (nowIso : String) : MoversData :=
  { metadata := .fallbackInfo "Fallback data - API temporarily unavailable",
    lastUpdated := nowIso,
    topGainers := dummyStocks.take 3,
    topLosers := (dummyStocks.drop 1).take 3,
    mostActive := dummyStocks }

/-- `CACHE_KEYS.TOP_GAINERS_LOSERS`. -/
def moversKey : String := "top_gainers_losers"

/-- `CACHE_DURATIONS.STOCK_DATA` (5 minutes). -/
def STOCK_DATA_TTL : Int := 5 * 60 * 1000

/-- The part of `fetchTopGainersLosers` after the initial cache check missed
(or was skipped): call the gateway; on success format and cache; on a
`success: false` envelope, or on any thrown error (modelled by
`gw = .error _`, e.g. the timeout rejection of `makeRequest`, or a success
envelope with no body), fall back to `cacheService.get` and then to
`getFallbackData()`.  Note the fallback path uses `cacheService.get` — the
TTL-respecting, auto-evicting read. -/
def fetchMoversAfterMiss (fmt : String → String)
    (gw : Except String (ApiEnvelope RawMovers))
    (st : Store (CacheItem MoversData)) (now : Int) (nowIso : String) :
    MoversData × Store (CacheItem MoversData) :=
  match gw with
  | .ok resp =>
    if resp.success then
      match resp.data with
      | some raw =>
        let formatted := formatStockData fmt raw
        (formatted, cacheSet st moversKey formatted STOCK_DATA_TTL now)
      | none =>
        match cacheGet st moversKey now with
        | (some d, st2) => (d, st2)
        | (none, st2) => (getFallbackData nowIso, st2)
    else
      match cacheGet st moversKey now with
      | (some d, st2) => (d, st2)
      | (none, st2) => (getFallbackData nowIso, st2)
  | .error _ =>
    match cacheGet st moversKey now with
    | (some d, st2) => (d, st2)
    | (none, st2) => (getFallbackData nowIso, st2)

/-- `stockService.fetchTopGainersLosers(forceRefresh)` over a cache store at
time `now` / `nowIso`, with the gateway outcome passed in.  Every error is
caught inside, so the call always resolves: the result type is total. -/
def fetchTopGainersLosers (fmt : String → String) (forceRefresh : Bool)
    (gw : Except String (ApiEnvelope RawMovers))
    (st : Store (CacheItem MoversData)) (now : Int) (nowIso : String) :
    MoversData × Store (CacheItem MoversData) :=
  if forceRefresh then fetchMoversAfterMiss fmt gw st now nowIso
  else
    match cacheGet st moversKey now with
    | (some d, st1) => (d, st1)
    | (none, st1) => fetchMoversAfterMiss fmt gw st1 now nowIso

/-! ## Chart period filtering (stockService_new.filterDataByPeriod) -/

/-- A parsed chart point.  `date` is the epoch value of `new Date(item.date)`
in milliseconds; the OHLCV numbers are opaque to the filtering logic and kept
as the parsed integers. -/
structure ChartPoint where
  date : Int
  price : Int
  volume : Int
  high : Int
  low : Int
  openPrice : Int
deriving DecidableEq, Repr

/-- One day in milliseconds. -/
def msPerDay : Int := 24 * 60 * 60 * 1000

/-- The `switch (period)` of `filterDataByPeriod`: the cutoff distance from
`now`, or `none` for an unrecognized period (the `default` branch). -/
def periodCutoffMs (period : String) : Option Int :=
  if period = "1W" then some (7 * msPerDay)
  else if period = "1M" then some (30 * msPerDay)
  else if period = "3M" then some (90 * msPerDay)
  else if period = "6M" then some (180 * msPerDay)
  else if period = "1Y" then some (365 * msPerDay)
  else if period = "5Y" then some (5 * 365 * msPerDay)
  else none

/-- `filterDataByPeriod(data, period)` at time `now`: keep the points with
`new Date(item.date) >= cutoffDate`; unrecognized period returns the data
unchanged. -/
def filterDataByPeriod (data : List ChartPoint) (period : String) (now : Int) :
    List ChartPoint :=
  match periodCutoffMs period with
  | none => data
  | some d => data.filter (fun item => now - d ≤ item.date)

/-! ## Search index (src/services/searchService.js) -/

/-- A catalog entry of `getStockDatabase()`. -/
structure CatalogStock where
  symbol : String
  name : String
  sector : String
  exchange : String
deriving DecidableEq, Repr

/-- A search result: a catalog entry tagged with its `matchType` string. -/
structure SearchResult where
  symbol : String
  name : String
  sector : String
  exchange : String
  matchType : String
deriving DecidableEq, Repr

/-- Spread-and-tag: `{ ...stock, matchType }`. -/
def tagStock (s : CatalogStock) (mt : String) : SearchResult :=
  ⟨s.symbol, s.name, s.sector, s.exchange, mt⟩

/-- The comparator's priority table
`{ exact_symbol: 0, partial_symbol: 1, name: 2 }`. -/
def matchPriority (mt : String) : Nat :=
  if mt = "exact_symbol" then 0
  else if mt = "partial_symbol" then 1
  else 2

/-- Stable insertion: `x` goes before the first element whose priority is
not strictly smaller, so elements comparing equal keep their original order. -/
def insertStable (x : SearchResult) : List SearchResult → List SearchResult
  | [] => [x]
  | y :: ys =>
    if matchPriority y.matchType < matchPriority x.matchType then
      y :: insertStable x ys
    else x :: y :: ys

/-- `Array.prototype.sort` with the priority comparator.  The ECMAScript
sort is stable (ES2019), and a stable sort is extensionally unique, so it is
modelled by stable insertion sort. -/
def sortByPriority : List SearchResult → List SearchResult
  | [] => []
  | x :: xs => insertStable x (sortByPriority xs)

/-- The exact-symbol group: `stockDatabase.find(s => s.symbol === query)`,
as a zero- or one-element list. -/
def exactMatchList (db : List CatalogStock) (query : String) :
    List SearchResult :=
  match List.find? (fun s => s.symbol == query) db with
  | some s => [tagStock s "exact_symbol"]
  | none => []

/-- The partial-symbol group:
`filter(s => s.symbol.includes(query) && s.symbol !== query)`. -/
def partialSymbolList (db : List CatalogStock) (query : String) :
    List SearchResult :=
  (db.filter (fun s => jsIncludes s.symbol query && s.symbol != query)).map
    (fun s => tagStock s "partial_symbol")

/-- The name group: `filter(s => s.name.toUpperCase().includes(query) &&
!results.some(r => r.symbol === s.symbol))`, where `results` is the list
accumulated so far. -/
def nameMatchList (db : List CatalogStock) (query : String)
    (resultsSoFar : List SearchResult) : List SearchResult :=
  (db.filter (fun s =>
    jsIncludes (jsToUpper s.name) query &&
      !(resultsSoFar.any (fun r => r.symbol == s.symbol)))).map
    (fun s => tagStock s "name")

/-- `performLocalSearch(query)` over a catalog `db`: build the three groups
in order, `slice(0, 20)`, then sort by match-type priority. -/
def performLocalSearch (db : List CatalogStock) (query : String) :
    List SearchResult :=
  let headGroups := exactMatchList db query ++ partialSymbolList db query
  let results := headGroups ++ nameMatchList db query headGroups
  sortByPriority (results.take 20)

/-! ## Concrete sample inputs (used by witnesses and counterexamples) -/

/-- A one-wishlist collection holding AAPL, for concrete evaluations. -/
def sampleWishlists : List Wishlist :=
  [⟨"w1", "L", [⟨some "AAPL", "Apple Inc.", "$1", "+1%", "t0"⟩], "t0", "t0"⟩]

/-! ## Store lemmas -/

/-- Removing a key makes its lookup miss. -/
theorem storageGetItem_storageRemoveItem_self {V : Type} (st : Store V)
    (k : String) : storageGetItem (storageRemoveItem st k) k = none := by
  have h : List.find? (fun kv => kv.1 == k)
      (List.filter (fun kv => kv.1 != k) st) = none := by
    apply List.find?_eq_none.mpr
    intro kv hkv
    have h2 := (List.mem_filter.mp hkv).2
    simpa using h2
  simp [storageGetItem, storageRemoveItem, h]

/-- Filtering the store with a predicate that keeps every pair carrying key
`k` does not change the lookup of `k`. -/
theorem find?_filter_key {V : Type} (st : Store V) (k : String)
    (q : String × V → Bool) (hq : ∀ v, q (k, v) = true) :
    List.find? (fun kv => kv.1 == k) (List.filter q st) =
      List.find? (fun kv => kv.1 == k) st := by
  induction st with
  | nil => rfl
  | cons kv rest ih =>
    obtain ⟨k1, v1⟩ := kv
    by_cases hk : k1 = k
    · subst hk
      rw [List.filter_cons_of_pos (hq v1)]
      rw [List.find?_cons_of_pos _ (by simp), List.find?_cons_of_pos _ (by simp)]
    · by_cases hqkv : q (k1, v1) = true
      · rw [List.filter_cons_of_pos hqkv,
          List.find?_cons_of_neg _ (by simpa using hk),
          List.find?_cons_of_neg _ (by simpa using hk), ih]
      · rw [List.filter_cons_of_neg (by simpa using hqkv),
          List.find?_cons_of_neg _ (by simpa using hk), ih]

/-! ## Claim theorems -/

/-- C4: for every key holding a cache entry, `cacheService.get` at a time
strictly after the entry's `expiration` returns `null` and removes the entry
from the underlying store, while a `get` at a time exactly equal to
`expiration` returns the payload (the freshness boundary is inclusive). -/
theorem c4_ttl {α : Type} (st : Store (CacheItem α)) (key : String)
    (item : CacheItem α) (now : Int)
    (h : storageGetItem st (cachePref ++ key) = some item) :
    (item.expiration < now →
      cacheGet st key now = (none, storageRemoveItem st (cachePref ++ key)) ∧
      storageGetItem (cacheGet st key now).2 (cachePref ++ key) = none) ∧
    (now = item.expiration →
      cacheGet st key now = (some item.data, st)) := by
  constructor
  · intro hlt
    have heq : cacheGet st key now =
        (none, storageRemoveItem st (cachePref ++ key)) := by
      unfold cacheGet
      rw [h]
      simp [hlt, cacheRemove]
    refine ⟨heq, ?_⟩
    rw [heq]
    exact storageGetItem_storageRemoveItem_self st (cachePref ++ key)
  · intro hnow
    unfold cacheGet
    rw [h]
    simp [hnow]

/-- Witness for C4 at a concrete store and times. -/
theorem c4_ttl_witness :
    storageGetItem [((("cache_" ++ "k" : String)),
        (⟨42, 0, 1000⟩ : CacheItem Nat))] (cachePref ++ "k") =
      some ⟨42, 0, 1000⟩ ∧
    (((⟨42, 0, 1000⟩ : CacheItem Nat).expiration < 2000 →
      cacheGet [(("cache_" ++ "k" : String), (⟨42, 0, 1000⟩ : CacheItem Nat))]
          "k" 2000 =
        (none, storageRemoveItem
          [(("cache_" ++ "k" : String), (⟨42, 0, 1000⟩ : CacheItem Nat))]
          (cachePref ++ "k")) ∧
      storageGetItem
        (cacheGet [(("cache_" ++ "k" : String), (⟨42, 0, 1000⟩ : CacheItem Nat))]
          "k" 2000).2 (cachePref ++ "k") = none) ∧
    ((2000 : Int) = (⟨42, 0, 1000⟩ : CacheItem Nat).expiration →
      cacheGet [(("cache_" ++ "k" : String), (⟨42, 0, 1000⟩ : CacheItem Nat))]
          "k" 2000 =
        (some 42, [(("cache_" ++ "k" : String), (⟨42, 0, 1000⟩ : CacheItem Nat))]))) :=
  ⟨by decide, c4_ttl _ "k" _ 2000 (by decide)⟩

/-- C10 helper: `clearAll` is exactly the filter that drops the namespaced
cache keys. -/
theorem cacheClearAll_eq_filter {V : Type} (st : Store V) :
    cacheClearAll st =
      List.filter (fun kv => !(jsStartsWith kv.1 cachePref)) st := by
  unfold cacheClearAll storageMultiRemove storageAllKeys
  apply List.filter_congr
  intro kv hkv
  have hmem : kv.1 ∈ st.map (fun kv => kv.1) := List.mem_map_of_mem _ hkv
  have hc : (List.filter (fun k => jsStartsWith k cachePref)
      (st.map (fun kv => kv.1))).contains kv.1 = jsStartsWith kv.1 cachePref := by
    by_cases hs : jsStartsWith kv.1 cachePref = true
    · rw [hs]
      exact List.elem_eq_true_of_mem (List.mem_filter.mpr ⟨hmem, hs⟩)
    · rw [Bool.eq_false_iff.mpr hs]
      by_contra hne
      have hin : kv.1 ∈ List.filter (fun k => jsStartsWith k cachePref)
          (st.map (fun kv => kv.1)) :=
        List.mem_of_elem_eq_true (Bool.of_not_eq_false hne)
      exact hs (List.mem_filter.mp hin).2
  rw [hc]

/-- C10: `cacheService.clearAll` removes only the storage keys in the
`cache_` namespace; every key without that prefix — in particular the
wishlist collection key `stock_wishlists` — reads the same afterwards. -/
theorem c10_clearAll_frame {V : Type} (st : Store V) :
    cacheClearAll st =
      List.filter (fun kv => !(jsStartsWith kv.1 cachePref)) st ∧
    (∀ k, jsStartsWith k cachePref = false →
      storageGetItem (cacheClearAll st) k = storageGetItem st k) ∧
    storageGetItem (cacheClearAll st) WISHLIST_KEY =
      storageGetItem st WISHLIST_KEY := by
  refine ⟨cacheClearAll_eq_filter st, ?_, ?_⟩
  · intro k hk
    rw [cacheClearAll_eq_filter st]
    unfold storageGetItem
    rw [find?_filter_key st k _ (fun v => by simp [hk])]
  · rw [cacheClearAll_eq_filter st]
    unfold storageGetItem
    rw [find?_filter_key st WISHLIST_KEY _ (fun v => by
      have : jsStartsWith WISHLIST_KEY cachePref = false := by decide
      simp [this])]

/-- Witness for C10 at a concrete store holding one cache entry and the
wishlist collection. -/
theorem c10_clearAll_frame_witness :
    cacheClearAll [(("cache_a" : String), 1), ((WISHLIST_KEY : String), 2)] =
      List.filter (fun kv => !(jsStartsWith kv.1 cachePref))
        [(("cache_a" : String), 1), ((WISHLIST_KEY : String), 2)] ∧
    (∀ k, jsStartsWith k cachePref = false →
      storageGetItem
        (cacheClearAll [(("cache_a" : String), 1), ((WISHLIST_KEY : String), 2)]) k =
      storageGetItem [(("cache_a" : String), 1), ((WISHLIST_KEY : String), 2)] k) ∧
    storageGetItem
        (cacheClearAll [(("cache_a" : String), 1), ((WISHLIST_KEY : String), 2)])
        WISHLIST_KEY =
      storageGetItem [(("cache_a" : String), 1), ((WISHLIST_KEY : String), 2)]
        WISHLIST_KEY :=
  c10_clearAll_frame _

/-- C2 counterexample: on a timeout (`AbortError`) `makeRequest` does NOT
resolve with a failure envelope — its `catch` block re-throws a fresh
timeout `Error`, so the promise rejects. -/
theorem c2_counterexample :
    makeRequest FetchOutcome.abort =
      Except.error "Request timeout - please check your internet connection" ∧
    (makeRequest FetchOutcome.abort).isOk = false :=
  ⟨rfl, rfl⟩

/-- C2 amended: for every outcome other than a timeout — network error,
non-2xx status, upstream error-message field, rate-limit note, or success —
`makeRequest` resolves, encoding failures as `{success: false, error,
status: 500}`; a timeout instead REJECTS with the distinct message
`'Request timeout - please check your internet connection'`. -/
theorem c2_amended (o : FetchOutcome) (ho : o ≠ FetchOutcome.abort) :
    (∃ env : ApiEnvelope UpstreamBody,
      makeRequest o = Except.ok env ∧
      (env.success = false → env.error.isSome = true ∧ env.status = 500)) ∧
    makeRequest FetchOutcome.abort =
      Except.error "Request timeout - please check your internet connection" := by
  refine ⟨?_, rfl⟩
  cases o with
  | abort => exact absurd rfl ho
  | netFailure msg =>
    exact ⟨⟨false, none, some msg, 500⟩, rfl, fun _ => ⟨rfl, rfl⟩⟩
  | httpResponse ok status body =>
    by_cases hok : ok = true
    · by_cases he : jsTruthyStr body.errorMessage = true
      · refine ⟨⟨false, none, some (body.errorMessage.getD ""), 500⟩, ?_,
          fun _ => ⟨rfl, rfl⟩⟩
        simp [makeRequest, makeRequestTry, hok, he]
      · by_cases hn : jsTruthyStr body.note = true
        · refine ⟨⟨false, none,
            some "API call frequency limit reached. Please try again later.",
            500⟩, ?_, fun _ => ⟨rfl, rfl⟩⟩
          simp [makeRequest, makeRequestTry, hok, he, hn]
        · refine ⟨⟨true, some body, none, status⟩, ?_, fun h => by simp at h⟩
          simp [makeRequest, makeRequestTry, hok, he, hn]
    · refine ⟨⟨false, none, some ("HTTP error! status: " ++ toString status),
        500⟩, ?_, fun _ => ⟨rfl, rfl⟩⟩
      simp [makeRequest, makeRequestTry, hok]

/-- Witness for C2 amended at a concrete network failure. -/
theorem c2_amended_witness :
    FetchOutcome.netFailure "connection refused" ≠ FetchOutcome.abort ∧
    ((∃ env : ApiEnvelope UpstreamBody,
      makeRequest (FetchOutcome.netFailure "connection refused") =
        Except.ok env ∧
      (env.success = false → env.error.isSome = true ∧ env.status = 500)) ∧
    makeRequest FetchOutcome.abort =
      Except.error "Request timeout - please check your internet connection") :=
  ⟨by decide, c2_amended _ (by decide)⟩

/-- C6 counterexample: `removeStockFromWishlist` with an unknown wishlist id
does NOT surface a hard error — its `catch` swallows the thrown
`'Wishlist not found'` and the call resolves with `false`. -/
theorem c6_counterexample :
    removeStockFromWishlist [] "w1" "AAPL" "t0" = Except.ok (false, []) ∧
    (removeStockFromWishlist [] "w1" "AAPL" "t0").isOk = true :=
  ⟨rfl, rfl⟩

/-- C6 amended: `removeStockFromWishlist` never rejects: an unknown id
resolves with a `false` success flag and the collection untouched (the
thrown "not found" is swallowed by the `catch`); a known id filters the
matching symbol out of the first matching wishlist's stocks (a no-op if
absent), bumps its `updatedAt`, persists, and resolves with `true`. -/
theorem c6_amended (wishlists : List Wishlist)
    (wishlistId stockSymbol nowIso : String) :
    (removeStockFromWishlist wishlists wishlistId stockSymbol nowIso).isOk
      = true ∧
    ((∀ w ∈ wishlists, w.id ≠ wishlistId) →
      removeStockFromWishlist wishlists wishlistId stockSymbol nowIso =
        Except.ok (false, wishlists)) ∧
    (∀ w, List.find? (fun x => x.id == wishlistId) wishlists = some w →
      removeStockFromWishlist wishlists wishlistId stockSymbol nowIso =
        Except.ok (true, updateFirstById wishlists wishlistId (fun wl =>
          { wl with
            stocks := wl.stocks.filter (fun s => s.symbol != some stockSymbol),
            updatedAt := nowIso }))) := by
  refine ⟨?_, ?_, ?_⟩
  · unfold removeStockFromWishlist removeStockTry
    cases hf : List.find? (fun x => x.id == wishlistId) wishlists <;>
      simp [hf, Except.isOk, Except.toBool]
  · intro hnone
    have hf : List.find? (fun x => x.id == wishlistId) wishlists = none := by
      apply List.find?_eq_none.mpr
      intro w hw
      simpa using hnone w hw
    unfold removeStockFromWishlist removeStockTry
    rw [hf]
  · intro w hf
    unfold removeStockFromWishlist removeStockTry
    rw [hf]

/-- Witness for C6 amended at a one-wishlist collection. -/
theorem c6_amended_witness :
    (removeStockFromWishlist sampleWishlists "w1" "AAPL" "t1").isOk = true ∧
    ((∀ w ∈ sampleWishlists, w.id ≠ "w1") →
      removeStockFromWishlist sampleWishlists "w1" "AAPL" "t1" =
        Except.ok (false, sampleWishlists)) ∧
    (∀ w, List.find? (fun x => x.id == "w1") sampleWishlists = some w →
      removeStockFromWishlist sampleWishlists "w1" "AAPL" "t1" =
        Except.ok (true, updateFirstById sampleWishlists "w1" (fun wl =>
          { wl with
            stocks := wl.stocks.filter (fun s => s.symbol != some "AAPL"),
            updatedAt := "t1" }))) :=
  c6_amended sampleWishlists "w1" "AAPL" "t1"

/-- `find?` over a decomposed collection whose first id match is `x`. -/
theorem find?_id_append_first (pre : List Wishlist) (x : Wishlist)
    (post : List Wishlist) (wid : String)
    (hpre : ∀ p ∈ pre, (p.id == wid) = false)
    (hx : (x.id == wid) = true) :
    List.find? (fun y => y.id == wid) (pre ++ x :: post) = some x := by
  induction pre with
  | nil =>
    rw [List.nil_append]
    exact List.find?_cons_of_pos post hx
  | cons a rest ih =>
    have ha := hpre a (by simp)
    rw [List.cons_append]
    have h2 : List.find? (fun y => y.id == wid) (a :: (rest ++ x :: post)) =
        List.find? (fun y => y.id == wid) (rest ++ x :: post) :=
      List.find?_cons_of_neg _ (by simp [ha])
    rw [h2]
    exact ih (fun p hp => hpre p (by simp [hp]))

/-- `findIndex` followed by in-place mutation: the collection decomposes
around the first id match, which is the only element changed. -/
theorem updateFirstById_spec (ws : List Wishlist) (wid : String)
    (f : Wishlist → Wishlist) (w : Wishlist)
    (h : List.find? (fun x => x.id == wid) ws = some w) :
    ∃ pre post, ws = pre ++ w :: post ∧
      (∀ p ∈ pre, (p.id == wid) = false) ∧
      updateFirstById ws wid f = pre ++ f w :: post := by
  induction ws with
  | nil => simp at h
  | cons a rest ih =>
    by_cases ha : (a.id == wid) = true
    · have h2 : List.find? (fun x => x.id == wid) (a :: rest) = some a :=
        List.find?_cons_of_pos rest ha
      rw [h2] at h
      obtain rfl := Option.some.inj h
      exact ⟨[], rest, rfl, by simp, by simp [updateFirstById, ha]⟩
    · have h2 : List.find? (fun x => x.id == wid) (a :: rest) =
          List.find? (fun x => x.id == wid) rest :=
        List.find?_cons_of_neg rest ha
      rw [h2] at h
      obtain ⟨pre, post, h1, hp2, h3⟩ := ih h
      refine ⟨a :: pre, post, by simp [h1], ?_, ?_⟩
      · intro p hp
        rcases List.mem_cons.mp hp with rfl | hp2'
        · simpa using ha
        · exact hp2 p hp2'
      · simp only [updateFirstById, if_neg ha, h3]
        rfl

/-- C5 counterexample: a stock input that carries its identifier only in
`ticker` bypasses the duplicate check (`s.symbol === stock.symbol` with
`stock.symbol === undefined`), so a second AAPL is appended to a wishlist
that already holds AAPL — the add succeeds and `stocks` changes. -/
theorem c5_counterexample :
    (addStockToWishlist sampleWishlists "w1"
      ⟨none, some "AAPL", "Apple Inc.", "$1", "+1%"⟩ "t1").isOk = true ∧
    addStockToWishlist sampleWishlists "w1"
      ⟨none, some "AAPL", "Apple Inc.", "$1", "+1%"⟩ "t1" =
      Except.ok [⟨"w1", "L",
        [⟨some "AAPL", "Apple Inc.", "$1", "+1%", "t0"⟩,
         ⟨some "AAPL", "Apple Inc.", "$1", "+1%", "t1"⟩], "t0", "t1"⟩] :=
  ⟨rfl, rfl⟩

/-- C5 amended: the duplicate check compares only the input's `symbol`
field (case-sensitive `===`), not the `ticker` fallback.  For any input
whose `symbol` field matches a stock already in the target wishlist,
`addStockToWishlist` fails with the "already exists" error (leaving the
collection untouched); consequently, for adds that pass a non-empty symbol
in the `symbol` field, only the first succeeds.  An input carrying the
identifier only in `ticker` is not checked for duplication. -/
theorem c5_amended (wishlists : List Wishlist) (wishlistId : String)
    (stock : StockInput) (nowIso : String) (w : Wishlist)
    (hfind : List.find? (fun x => x.id == wishlistId) wishlists = some w) :
    (w.stocks.any (fun s => s.symbol == stock.symbol) = true →
      addStockToWishlist wishlists wishlistId stock nowIso =
        Except.error "Stock already exists in this wishlist") ∧
    (∀ sym ws', stock.symbol = some sym → sym.isEmpty = false →
      addStockToWishlist wishlists wishlistId stock nowIso = Except.ok ws' →
      ∀ stock2 nowIso2, StockInput.symbol stock2 = some sym →
        addStockToWishlist ws' wishlistId stock2 nowIso2 =
          Except.error "Stock already exists in this wishlist") := by
  have heval : addStockToWishlist wishlists wishlistId stock nowIso =
      (if (w.stocks.any fun s => s.symbol == stock.symbol) = true then
        Except.error "Stock already exists in this wishlist"
      else
        Except.ok (updateFirstById wishlists wishlistId (fun wl =>
          { wl with
            stocks := wl.stocks ++
              [⟨jsOrStr stock.symbol stock.ticker, stock.name, stock.price,
                stock.change, nowIso⟩],
            updatedAt := nowIso }))) := by
    unfold addStockToWishlist
    rw [hfind]
  constructor
  · intro hdup
    rw [heval, if_pos hdup]
  · intro sym ws' hsym hne hadd stock2 nowIso2 hsym2
    rw [heval] at hadd
    by_cases hdup : (w.stocks.any fun s => s.symbol == stock.symbol) = true
    · rw [if_pos hdup] at hadd
      simp at hadd
    · rw [if_neg hdup] at hadd
      have hws' := (Except.ok.inj hadd).symm
      obtain ⟨pre, post, hdecomp, hpre, hupd⟩ :=
        updateFirstById_spec wishlists wishlistId (fun wl =>
          { wl with
            stocks := wl.stocks ++
              [⟨jsOrStr stock.symbol stock.ticker, stock.name, stock.price,
                stock.change, nowIso⟩],
            updatedAt := nowIso }) w hfind
      have hwid : (w.id == wishlistId) = true := by
        simpa using List.find?_some hfind
      have hfind2 : List.find? (fun x => x.id == wishlistId)
          (pre ++ ({ w with
            stocks := w.stocks ++
              [⟨jsOrStr stock.symbol stock.ticker, stock.name, stock.price,
                stock.change, nowIso⟩],
            updatedAt := nowIso } : Wishlist) :: post) =
          some { w with
            stocks := w.stocks ++
              [⟨jsOrStr stock.symbol stock.ticker, stock.name, stock.price,
                stock.change, nowIso⟩],
            updatedAt := nowIso } :=
        find?_id_append_first pre _ post wishlistId hpre hwid
      have hnew : jsOrStr stock.symbol stock.ticker = some sym := by
        rw [hsym]
        simp [jsOrStr, hne]
      unfold addStockToWishlist
      rw [hws', hupd, hfind2]
      simp [List.any_append, hnew, hsym2]

/-- Witness for C5 amended on the sample collection. -/
theorem c5_amended_witness :
    List.find? (fun x => x.id == "w1") sampleWishlists =
      some ⟨"w1", "L", [⟨some "AAPL", "Apple Inc.", "$1", "+1%", "t0"⟩],
        "t0", "t0"⟩ ∧
    (((⟨"w1", "L", [⟨some "AAPL", "Apple Inc.", "$1", "+1%", "t0"⟩], "t0",
        "t0"⟩ : Wishlist)).stocks.any
        (fun s => s.symbol ==
          StockInput.symbol ⟨some "AAPL", none, "Apple Inc.", "$1", "+1%"⟩) =
        true →
      addStockToWishlist sampleWishlists "w1"
        ⟨some "AAPL", none, "Apple Inc.", "$1", "+1%"⟩ "t1" =
        Except.error "Stock already exists in this wishlist") ∧
    (∀ sym ws',
      StockInput.symbol ⟨some "AAPL", none, "Apple Inc.", "$1", "+1%"⟩ =
        some sym →
      sym.isEmpty = false →
      addStockToWishlist sampleWishlists "w1"
        ⟨some "AAPL", none, "Apple Inc.", "$1", "+1%"⟩ "t1" = Except.ok ws' →
      ∀ stock2 nowIso2, StockInput.symbol stock2 = some sym →
        addStockToWishlist ws' "w1" stock2 nowIso2 =
          Except.error "Stock already exists in this wishlist") :=
  ⟨by decide, c5_amended sampleWishlists "w1"
    ⟨some "AAPL", none, "Apple Inc.", "$1", "+1%"⟩ "t1" _ (by decide)⟩

/-- C3: with a failing gateway (rejection or `success: false` envelope) and
no cache entry under the movers key, `fetchTopGainersLosers` resolves
(total function, every error is caught) and returns the fixed built-in
fallback dataset, whose four entries are AAPL, GOOGL, MSFT, TSLA; the store
is left unchanged. -/
theorem c3_movers_fallback (fmt : String → String) (forceRefresh : Bool)
    (gw : Except String (ApiEnvelope RawMovers))
    (st : Store (CacheItem MoversData)) (now : Int) (nowIso : String)
    (hfail : (∃ e, gw = Except.error e) ∨
      ∃ env, gw = Except.ok env ∧ env.success = false)
    (hmiss : storageGetItem st (cachePref ++ moversKey) = none) :
    (fetchTopGainersLosers fmt forceRefresh gw st now nowIso).1 =
      getFallbackData nowIso ∧
    (fetchTopGainersLosers fmt forceRefresh gw st now nowIso).2 = st ∧
    (getFallbackData nowIso).mostActive.map (fun s => s.ticker) =
      ["AAPL", "GOOGL", "MSFT", "TSLA"] ∧
    (getFallbackData nowIso).mostActive.length = 4 := by
  have hget : cacheGet st moversKey now = (none, st) := by
    unfold cacheGet
    rw [hmiss]
  have hafter : fetchMoversAfterMiss fmt gw st now nowIso =
      (getFallbackData nowIso, st) := by
    rcases hfail with ⟨e, rfl⟩ | ⟨env, rfl, hsucc⟩
    · unfold fetchMoversAfterMiss
      rw [hget]
    · unfold fetchMoversAfterMiss
      simp [hsucc, hget]
  have hfetch : fetchTopGainersLosers fmt forceRefresh gw st now nowIso =
      (getFallbackData nowIso, st) := by
    unfold fetchTopGainersLosers
    cases forceRefresh with
    | true => simpa using hafter
    | false =>
      rw [if_neg (by simp), hget]
      simpa using hafter
  exact ⟨by rw [hfetch], by rw [hfetch], rfl, rfl⟩

/-- Witness for C3 at an empty store and a rate-limited envelope. -/
theorem c3_movers_fallback_witness :
    ((∃ e, (Except.ok ⟨false, none, some "rate limited", 500⟩ :
        Except String (ApiEnvelope RawMovers)) = Except.error e) ∨
      ∃ env, (Except.ok ⟨false, none, some "rate limited", 500⟩ :
        Except String (ApiEnvelope RawMovers)) = Except.ok env ∧
        env.success = false) ∧
    storageGetItem ([] : Store (CacheItem MoversData))
      (cachePref ++ moversKey) = none ∧
    ((fetchTopGainersLosers (fun s => s) false
        (Except.ok ⟨false, none, some "rate limited", 500⟩) [] 0 "T0").1 =
      getFallbackData "T0" ∧
    (fetchTopGainersLosers (fun s => s) false
        (Except.ok ⟨false, none, some "rate limited", 500⟩) [] 0 "T0").2 =
      ([] : Store (CacheItem MoversData)) ∧
    (getFallbackData "T0").mostActive.map (fun s => s.ticker) =
      ["AAPL", "GOOGL", "MSFT", "TSLA"] ∧
    (getFallbackData "T0").mostActive.length = 4) :=
  ⟨Or.inr ⟨_, rfl, rfl⟩, rfl,
    c3_movers_fallback (fun s => s) false _ [] 0 "T0"
      (Or.inr ⟨_, rfl, rfl⟩) rfl⟩

/-- C1: the claimed stale-cache fallback never happens.  With a movers
cache entry whose TTL expired at 1000 and the clock at 2000, a failing
gateway makes `fetchTopGainersLosers` return `getFallbackData()` — NOT the
cached payload — and the stale entry is evicted by the `cacheService.get`
reads themselves, so it does not remain readable.  The code's own log line
"Using expired cached data as fallback" documents the intended stale read,
but `cacheService.get` can never return an expired entry. -/
theorem c1_stale_fallback_divergence :
    (fetchTopGainersLosers (fun s => s) false
        (Except.ok ⟨false, none, some "rate limited", 500⟩)
        [(cachePref ++ moversKey,
          ⟨⟨MoversMeta.fromApi "m", "old", [], [], []⟩, 0, 1000⟩)]
        2000 "T1").1 = getFallbackData "T1" ∧
    (fetchTopGainersLosers (fun s => s) false
        (Except.ok ⟨false, none, some "rate limited", 500⟩)
        [(cachePref ++ moversKey,
          ⟨⟨MoversMeta.fromApi "m", "old", [], [], []⟩, 0, 1000⟩)]
        2000 "T1").1 ≠
      (⟨MoversMeta.fromApi "m", "old", [], [], []⟩ : MoversData) ∧
    storageGetItem
      (fetchTopGainersLosers (fun s => s) false
        (Except.ok ⟨false, none, some "rate limited", 500⟩)
        [(cachePref ++ moversKey,
          ⟨⟨MoversMeta.fromApi "m", "old", [], [], []⟩, 0, 1000⟩)]
        2000 "T1").2 (cachePref ++ moversKey) = none :=
  ⟨rfl, by decide, rfl⟩

/-- Pointwise description of `formatStockList` with an arbitrary starting
index. -/
theorem formatStockListFrom_getElem (fmt : String → String)
    (stocks : List RawStock) (j i : Nat) (s : RawStock)
    (hs : stocks[i]? = some s) :
    (formatStockListFrom fmt j stocks)[i]? =
      some ⟨j + i + 1, s.ticker, getCompanyName s.ticker, "$" ++ fmt s.price,
        s.change_percentage, "$" ++ fmt s.change_amount, s.volume⟩ := by
  induction stocks generalizing j i with
  | nil => simp at hs
  | cons a rest ih =>
    cases i with
    | zero =>
      simp only [List.getElem?_cons_zero] at hs
      obtain rfl := Option.some.inj hs
      simp [formatStockListFrom]
    | succ n =>
      simp only [List.getElem?_cons_succ] at hs
      have := ih (j + 1) n hs
      simp only [formatStockListFrom, List.getElem?_cons_succ]
      rw [this]
      congr 2
      omega

/-- C7 counterexample: for a ticker absent from the static table, the
synthesized display name is `"<ticker> Inc."`, not `"<ticker> Corp."`. -/
theorem c7_counterexample :
    (formatStockData (fun s => s)
        ⟨"m", "L", some [⟨"ZZZZ", "10", "+1%", "0.5", "100"⟩], none, none⟩
      ).topGainers.map (fun s => s.name) = ["ZZZZ Inc."] ∧
    ("ZZZZ Inc." : String) ≠ "ZZZZ Corp." :=
  ⟨rfl, by decide⟩

/-- C7 amended: `formatStockList` assigns a 1-based index id, resolves the
display name via the static ticker→name table and, for a ticker absent from
that table, synthesizes `"<ticker> Inc."`; price and changeAmount get the
2-decimal formatting (`fmt`, kept abstract) with a `$` prefix, and change
and volume are passed through unchanged. -/
theorem c7_amended (fmt : String → String) (stocks : List RawStock)
    (i : Nat) (s : RawStock) (hs : stocks[i]? = some s) :
    (formatStockList fmt stocks)[i]? =
      some ⟨i + 1, s.ticker, getCompanyName s.ticker, "$" ++ fmt s.price,
        s.change_percentage, "$" ++ fmt s.change_amount, s.volume⟩ ∧
    (∀ kv, List.find? (fun kv => kv.1 == s.ticker) knownTickers = some kv →
      getCompanyName s.ticker = kv.2) ∧
    (List.find? (fun kv => kv.1 == s.ticker) knownTickers = none →
      getCompanyName s.ticker = s.ticker ++ " Inc.") := by
  refine ⟨?_, ?_, ?_⟩
  · have := formatStockListFrom_getElem fmt stocks 0 i s hs
    simpa [formatStockList] using this
  · intro kv hkv
    unfold getCompanyName
    rw [hkv]
  · intro hnone
    unfold getCompanyName
    rw [hnone]

/-- Witness for C7 amended at a known ticker in position 0. -/
theorem c7_amended_witness :
    ([(⟨"AAPL", "150.00", "+1%", "2.00", "999"⟩ : RawStock)])[0]? =
      some ⟨"AAPL", "150.00", "+1%", "2.00", "999"⟩ ∧
    ((formatStockList (fun s => s)
        [⟨"AAPL", "150.00", "+1%", "2.00", "999"⟩])[0]? =
      some ⟨0 + 1, "AAPL", getCompanyName "AAPL", "$" ++ "150.00", "+1%",
        "$" ++ "2.00", "999"⟩ ∧
    (∀ kv, List.find? (fun kv => kv.1 == "AAPL") knownTickers = some kv →
      getCompanyName "AAPL" = kv.2) ∧
    (List.find? (fun kv => kv.1 == "AAPL") knownTickers = none →
      getCompanyName "AAPL" = "AAPL" ++ " Inc.")) :=
  ⟨by decide, c7_amended (fun s => s)
    [⟨"AAPL", "150.00", "+1%", "2.00", "999"⟩] 0
    ⟨"AAPL", "150.00", "+1%", "2.00", "999"⟩ (by decide)⟩

/-- C8: for data already ascending by date, `filterDataByPeriod` with a
recognized period keeps exactly the points dated on or after
`now - periodDuration`, preserving the ascending order; an unrecognized
period returns all points; and the six recognized periods map to the
durations 7, 30, 90, 180, 365 and 5×365 days. -/
theorem c8_filter_by_period (data : List ChartPoint) (now : Int)
    (hasc : data.Pairwise (fun a b => a.date ≤ b.date)) :
    (∀ period d, periodCutoffMs period = some d →
      filterDataByPeriod data period now =
        data.filter (fun item => now - d ≤ item.date) ∧
      (∀ p, p ∈ filterDataByPeriod data period now ↔
        p ∈ data ∧ now - d ≤ p.date) ∧
      (filterDataByPeriod data period now).Pairwise
        (fun a b => a.date ≤ b.date)) ∧
    (∀ period, periodCutoffMs period = none →
      filterDataByPeriod data period now = data) ∧
    periodCutoffMs "1W" = some (7 * msPerDay) ∧
    periodCutoffMs "1M" = some (30 * msPerDay) ∧
    periodCutoffMs "3M" = some (90 * msPerDay) ∧
    periodCutoffMs "6M" = some (180 * msPerDay) ∧
    periodCutoffMs "1Y" = some (365 * msPerDay) ∧
    periodCutoffMs "5Y" = some (5 * 365 * msPerDay) := by
  refine ⟨?_, ?_, rfl, rfl, rfl, rfl, rfl, rfl⟩
  · intro period d hd
    have heq : filterDataByPeriod data period now =
        data.filter (fun item => now - d ≤ item.date) := by
      unfold filterDataByPeriod
      rw [hd]
    refine ⟨heq, ?_, ?_⟩
    · intro p
      rw [heq]
      simp [List.mem_filter]
    · rw [heq]
      exact List.Pairwise.filter _ hasc
  · intro period hnone
    unfold filterDataByPeriod
    rw [hnone]

/-- Witness for C8 at a two-point ascending series. -/
theorem c8_filter_by_period_witness :
    ([(⟨0, 1, 1, 1, 1, 1⟩ : ChartPoint), ⟨100, 2, 2, 2, 2, 2⟩] :
      List ChartPoint).Pairwise (fun a b => a.date ≤ b.date) ∧
    ((∀ period d, periodCutoffMs period = some d →
      filterDataByPeriod [⟨0, 1, 1, 1, 1, 1⟩, ⟨100, 2, 2, 2, 2, 2⟩] period 50 =
        List.filter (fun item => 50 - d ≤ item.date)
          [⟨0, 1, 1, 1, 1, 1⟩, ⟨100, 2, 2, 2, 2, 2⟩] ∧
      (∀ p, p ∈ filterDataByPeriod
          [⟨0, 1, 1, 1, 1, 1⟩, ⟨100, 2, 2, 2, 2, 2⟩] period 50 ↔
        p ∈ [(⟨0, 1, 1, 1, 1, 1⟩ : ChartPoint), ⟨100, 2, 2, 2, 2, 2⟩] ∧
          50 - d ≤ p.date) ∧
      (filterDataByPeriod
          [⟨0, 1, 1, 1, 1, 1⟩, ⟨100, 2, 2, 2, 2, 2⟩] period 50).Pairwise
        (fun a b => a.date ≤ b.date)) ∧
    (∀ period, periodCutoffMs period = none →
      filterDataByPeriod [⟨0, 1, 1, 1, 1, 1⟩, ⟨100, 2, 2, 2, 2, 2⟩] period 50 =
        [⟨0, 1, 1, 1, 1, 1⟩, ⟨100, 2, 2, 2, 2, 2⟩]) ∧
    periodCutoffMs "1W" = some (7 * msPerDay) ∧
    periodCutoffMs "1M" = some (30 * msPerDay) ∧
    periodCutoffMs "3M" = some (90 * msPerDay) ∧
    periodCutoffMs "6M" = some (180 * msPerDay) ∧
    periodCutoffMs "1Y" = some (365 * msPerDay) ∧
    periodCutoffMs "5Y" = some (5 * 365 * msPerDay)) :=
  ⟨by decide, c8_filter_by_period _ 50 (by decide)⟩

/-- Every member of the exact group is tagged `exact_symbol`. -/
theorem matchType_mem_exact (db : List CatalogStock) (q : String)
    (r : SearchResult) (hr : r ∈ exactMatchList db q) :
    r.matchType = "exact_symbol" := by
  unfold exactMatchList at hr
  cases hf : List.find? (fun s => s.symbol == q) db with
  | none =>
    rw [hf] at hr
    simp at hr
  | some s =>
    rw [hf] at hr
    have := List.mem_singleton.mp hr
    rw [this]
    rfl

/-- Every member of the partial-symbol group is tagged `partial_symbol`. -/
theorem matchType_mem_psym (db : List CatalogStock) (q : String)
    (r : SearchResult) (hr : r ∈ partialSymbolList db q) :
    r.matchType = "partial_symbol" := by
  unfold partialSymbolList at hr
  obtain ⟨s, _, rfl⟩ := List.mem_map.mp hr
  rfl

/-- Every member of the name group is tagged `name`. -/
theorem matchType_mem_name (db : List CatalogStock) (q : String)
    (acc : List SearchResult) (r : SearchResult)
    (hr : r ∈ nameMatchList db q acc) : r.matchType = "name" := by
  unfold nameMatchList at hr
  obtain ⟨s, _, rfl⟩ := List.mem_map.mp hr
  rfl

/-- A list whose members all share one priority is sorted by priority. -/
theorem pairwise_prio_of_const (l : List SearchResult) (k : Nat)
    (h : ∀ r ∈ l, matchPriority r.matchType = k) :
    l.Pairwise
      (fun a b => matchPriority a.matchType ≤ matchPriority b.matchType) := by
  induction l with
  | nil => exact List.Pairwise.nil
  | cons a rest ih =>
    refine List.Pairwise.cons ?_ (ih fun r hr => h r (by simp [hr]))
    intro b hb
    rw [h a (by simp), h b (by simp [hb])]

/-- Inserting an element no greater than every list member puts it in
front. -/
theorem insertStable_of_head (x : SearchResult) (l : List SearchResult)
    (h : ∀ y ∈ l, matchPriority x.matchType ≤ matchPriority y.matchType) :
    insertStable x l = x :: l := by
  cases l with
  | nil => rfl
  | cons y ys =>
    unfold insertStable
    rw [if_neg (Nat.not_lt.mpr (h y (by simp)))]

/-- The stable sort leaves an already priority-sorted list unchanged. -/
theorem sortByPriority_of_sorted (l : List SearchResult)
    (h : l.Pairwise
      (fun a b => matchPriority a.matchType ≤ matchPriority b.matchType)) :
    sortByPriority l = l := by
  induction l with
  | nil => rfl
  | cons x xs ih =>
    obtain ⟨hx, hxs⟩ := List.pairwise_cons.mp h
    unfold sortByPriority
    rw [ih hxs]
    exact insertStable_of_head x xs hx

/-- C9: `performLocalSearch` returns at most 20 results, ordered as the
(at most one) exact symbol match, then the substring symbol matches
excluding the exact match, then the substring name matches excluding
anything already matched, each group a catalog-order filter; the final
stable sort by match-type priority (exact_symbol=0 < partial_symbol=1 <
name=2) leaves that concatenation unchanged, so the output IS the capped
concatenation, sorted by priority. -/
theorem c9_search_ranking (db : List CatalogStock) (query : String) :
    performLocalSearch db query =
      ((exactMatchList db query ++ partialSymbolList db query) ++
        nameMatchList db query
          (exactMatchList db query ++ partialSymbolList db query)).take 20 ∧
    (performLocalSearch db query).length ≤ 20 ∧
    (performLocalSearch db query).Pairwise
      (fun a b => matchPriority a.matchType ≤ matchPriority b.matchType) ∧
    (exactMatchList db query).length ≤ 1 := by
  have hpw : ((exactMatchList db query ++ partialSymbolList db query) ++
      nameMatchList db query
        (exactMatchList db query ++ partialSymbolList db query)).Pairwise
      (fun a b => matchPriority a.matchType ≤ matchPriority b.matchType) := by
    apply List.pairwise_append.mpr
    refine ⟨?_, ?_, ?_⟩
    · apply List.pairwise_append.mpr
      refine ⟨pairwise_prio_of_const _ 0
          (fun r hr => by rw [matchType_mem_exact db query r hr]; rfl),
        pairwise_prio_of_const _ 1
          (fun r hr => by rw [matchType_mem_psym db query r hr]; rfl),
        ?_⟩
      intro a ha b hb
      rw [matchType_mem_exact db query a ha,
        matchType_mem_psym db query b hb]
      decide
    · exact pairwise_prio_of_const _ 2
        (fun r hr => by rw [matchType_mem_name db query _ r hr]; rfl)
    · intro a ha b hb
      rw [matchType_mem_name db query _ b hb]
      rcases List.mem_append.mp ha with h1 | h2
      · rw [matchType_mem_exact db query a h1]
        decide
      · rw [matchType_mem_psym db query a h2]
        decide
  have hpwTake : (((exactMatchList db query ++ partialSymbolList db query) ++
      nameMatchList db query
        (exactMatchList db query ++ partialSymbolList db query)).take
        20).Pairwise
      (fun a b => matchPriority a.matchType ≤ matchPriority b.matchType) :=
    List.Pairwise.sublist (List.take_sublist 20 _) hpw
  have hdef : performLocalSearch db query =
      sortByPriority
        (((exactMatchList db query ++ partialSymbolList db query) ++
          nameMatchList db query
            (exactMatchList db query ++ partialSymbolList db query)).take 20) :=
    rfl
  have hsorted := sortByPriority_of_sorted _ hpwTake
  refine ⟨?_, ?_, ?_, ?_⟩
  · rw [hdef, hsorted]
  · rw [hdef, hsorted, List.length_take]
    exact min_le_left _ _
  · rw [hdef, hsorted]
    exact hpwTake
  · unfold exactMatchList
    cases List.find? (fun s => s.symbol == query) db <;> simp

end GrowwProdd
